import Mathlib

/-!
Verification of the transaction dispatch engine of mautrix-asmux.

Shallow embedding of the code in `mautrix_asmux/api/as_queue.py`,
`as_proxy.py`, `as_http.py` and `as_websocket.py`.  Python lists become
Lean lists, dicts become association lists, millisecond timestamps become
`Int`, and the cooperative control flow of the queue handle is modelled by
explicit state passing.  Definitions carry the names of the source
functions they embed.
-/

namespace Asmux

/-- `mautrix.types.DeviceLists`: the pair of user-id sets carried by a
transaction envelope. -/
structure DeviceLists where
  changed : List String
  left : List String
deriving DecidableEq, Repr

/-- The fields of a Matrix event JSON object that the dispatch engine reads.
`none` models an absent key (`event.get(...)` returning `None` /
`event[...]` raising `KeyError`). -/
structure MatrixEvent where
  type : Option String
  room_id : Option String
  state_key : Option String
  sender : String
  origin_server_ts : Int
deriving DecidableEq, Repr

/-- `as_proxy.Events`: the transaction envelope.  `otk_count` is a Python
dict keyed by user id; the payload record is abstracted to a `Nat`. -/
structure Events where
  txn_id : String
  pdu : List MatrixEvent
  edu : List MatrixEvent
  types : List String
  otk_count : List (String × Nat)
  device_lists : DeviceLists
deriving DecidableEq, Repr

/-- The empty envelope `Events(txn_id)` built by the attrs defaults. -/
def emptyEvents (txn_id : String) : Events :=
  { txn_id := txn_id, pdu := [], edu := [], types := [], otk_count := []
    device_lists := { changed := [], left := [] } }

/-- `database.table.appservice.AppService`: only the attributes the dispatch
engine reads.  The UUID id is abstracted to a `Nat`; `prefix_` embeds the
source's `prefix` attribute (a reserved word in Lean). -/
structure AppService where
  id : Nat
  owner : String
  prefix_ : String
  bot : String := ""
  address : String := ""
  hs_token : String := ""
  as_token : String := ""
  push : Bool := false
  push_key : Option Nat := none
deriving DecidableEq, Repr

/-- `database.Room`: a mapping from a room id to the owning appservice id
plus the soft-deleted flag. -/
structure Room where
  id : String
  owner : Nat
  deleted : Bool := false
deriving DecidableEq, Repr

/-! ### Python dict operations used by the source -/

/-- Lookup in an association list modelling a Python dict (first match). -/
def dlookup (m : List (String × Nat)) (k : String) : Option Nat :=
  (m.find? (fun p => p.1 == k)).map (fun p => p.2)

/-- What an entry of `m1` becomes under Python `m1 |= m2`: it keeps its
key, and takes `m2`'s value when `m2` also has the key. -/
def dictUpdateEntry (m2 : List (String × Nat)) (p : String × Nat) : String × Nat :=
  match m2.find? (fun q => q.1 == p.1) with
  | some q => (p.1, q.2)
  | none => p

/-- Python `m1 |= m2` (dict update): keys of `m1` keep their position but
take `m2`'s value on collision; keys only in `m2` are appended in
order. -/
def dictUnion (m1 m2 : List (String × Nat)) : List (String × Nat) :=
  m1.map (dictUpdateEntry m2) ++
  m2.filter (fun q => !(m1.any (fun p => p.1 == q.1)))

/-! ### Constants (as_queue.py line 17, as_websocket.py lines 48-58) -/

def MAX_PDU_AGE_MS : Int := 3 * 60 * 1000
def FIRST_SEND_TIMEOUT : Nat := 5
def RETRY_SEND_TIMEOUT : Nat := 30
def TIMEOUT_COUNT_LIMIT : Nat := 7
def WS_CLOSE_REPLACED : Nat := 4001
def WS_NOT_ACKNOWLEDGED : Nat := 4002

/-! ### Envelope operations -/

/-- Modelled from the spec: `Events.is_empty` is defined in
`api/as_util.py`, which is not in the source tree (only its callers in
`as_queue.py` and `as_websocket.py` are).  Spec §3: "`is_empty` iff all
five fields are empty" (all fields except `txn_id`). -/
def Events.is_empty (e : Events) : Bool :=
  e.pdu.isEmpty && e.edu.isEmpty && e.types.isEmpty && e.otk_count.isEmpty &&
  e.device_lists.changed.isEmpty && e.device_lists.left.isEmpty

/-- Modelled from the spec: `Events.pop_expired_pdu` is defined in
`api/as_util.py`, which is not in the source tree.  Spec §4.C: "for each
PDU `p` in an envelope, compute `age = now − origin_server_ts(p)`.  If
`age > 3 minutes` and the event is not from the owner user
(`sender != "@" + owner + mxid_suffix`), the event is removed from `pdu`
and collected into an `expired` list."  Returns the updated envelope and
the expired list; `now` is the wall clock read inside the method. -/
def Events.pop_expired_pdu (e : Events) (owner_mxid : String) (max_age now : Int) :
    Events × List MatrixEvent :=
  let stale := fun p : MatrixEvent =>
    decide (now - p.origin_server_ts > max_age) && decide (p.sender ≠ owner_mxid)
  ({ e with pdu := e.pdu.filter (fun p => !(stale p)) }, e.pdu.filter stale)

/-- `as_queue._append_device_list`: `l1.changed = list(set(l1.changed) |
set(l2.changed))` and likewise for `left`.  Python's set order is
unspecified; the embedding fixes the first-occurrence order, which agrees
on membership. -/
def _append_device_list (l1 l2 : DeviceLists) : DeviceLists :=
  { changed := (l1.changed ++ l2.changed).dedup
    left := (l1.left ++ l2.left).dedup }

/-- `as_queue._append_txn`: merge one entry of a borrowed batch into the
combined envelope. -/
def _append_txn (combined_txn txn : Events) : Events :=
  { txn_id :=
      if combined_txn.txn_id ≠ "" then combined_txn.txn_id ++ "," ++ txn.txn_id
      else txn.txn_id
    types := combined_txn.types ++ txn.types
    pdu := combined_txn.pdu ++ txn.pdu
    edu := combined_txn.edu ++ txn.edu
    otk_count := dictUnion combined_txn.otk_count txn.otk_count
    device_lists := _append_device_list combined_txn.device_lists txn.device_lists }

/-- `AppServiceQueue.__init__` line 40: `self.owner_mxid = f"@{az.owner}{mxid_suffix}"`. -/
def ownerMxid (owner mxid_suffix : String) : String :=
  "@" ++ owner ++ mxid_suffix

/-! ### The queue stream (`AppServiceQueue.next`)

A Redis stream entry is an id (monotone opaque key, embedded as `Nat`)
together with the envelope deserialized from its `txn` field; the stream is
the ordered list of live entries. -/

abbrev StreamEntry := Nat × Events

/-- The body of the `for stream_id, raw_txn in stream_txns` loop of
`AppServiceQueue.next` (lines 61-69): each entry of the read batch has its
stale PDUs evicted and is merged into the combined envelope. -/
def combineBatch (owner_mxid : String) (now : Int) (batch : List StreamEntry) : Events :=
  batch.foldl
    (fun combined_txn e =>
      _append_txn combined_txn (e.2.pop_expired_pdu owner_mxid MAX_PDU_AGE_MS now).1)
    (emptyEvents "")

/-- The merge loop of the queue applied to a list of already-evicted
envelopes: fold `_append_txn` from the empty envelope `Events("")`
(spec §4.C merge rule, implemented by as_queue.py lines 60-69). -/
def combineAll (ts : List Events) : Events :=
  ts.foldl _append_txn (emptyEvents "")

/-- The stream id held by the loop variable `stream_id` after the `for`
loop: the id of the last entry of the read batch. -/
def lastStreamId (batch : List StreamEntry) : Nat :=
  ((batch.getLast?).map (fun e => e.1)).getD 0

/-- What one pass of the `while True` loop of `AppServiceQueue.next`
(lines 54-74) does to the stream. -/
inductive QueueIterResult where
  /-- `xread` returned nothing within its 30 s block: the loop re-issues
  the read (`continue` at line 57). -/
  | blocked : QueueIterResult
  /-- The combined envelope was empty: line 72 `xdel`s only `stream_id`
  (the loop variable, i.e. the LAST id of the batch) and the loop
  iterates on the resulting stream. -/
  | emptyDropped (stream : List StreamEntry) : QueueIterResult
  /-- The combined envelope was non-empty: the loop breaks and the handle
  yields it; `stream` is the stream at the yield, `batch` the borrowed
  entries (`stream_txns`). -/
  | yielded (stream batch : List StreamEntry) (combined : Events) : QueueIterResult
deriving DecidableEq, Repr

/-- One pass of the `while True` loop of `AppServiceQueue.next`:
`xread(count=10)` reads the first up-to-10 entries; stale PDUs are evicted
and the batch combined; an empty combine deletes only `stream_id` and
iterates, a non-empty one is yielded. -/
def queueIter (owner_mxid : String) (now : Int) (stream : List StreamEntry) :
    QueueIterResult :=
  let batch := stream.take 10
  if batch.isEmpty then .blocked
  else
    let combined_txn := combineBatch owner_mxid now batch
    if combined_txn.is_empty then
      .emptyDropped (stream.filter (fun e => e.1 ≠ lastStreamId batch))
    else .yielded stream batch combined_txn

/-- The `while True` loop of `AppServiceQueue.next` run to its `yield`,
with an explicit iteration budget (each empty-combine pass deletes at
least one entry, so `stream.length` passes always suffice; a `none` means
the loop is still blocked waiting for entries).  Returns the stream state
at the yield, the borrowed batch and the combined envelope. -/
def nextFuel (owner_mxid : String) (now : Int) :
    Nat → List StreamEntry → Option (List StreamEntry × List StreamEntry × Events)
  | 0, _ => none
  | fuel + 1, stream =>
    match queueIter owner_mxid now stream with
    | .blocked => none
    | .emptyDropped stream' => nextFuel owner_mxid now fuel stream'
    | .yielded s batch combined => some (s, batch, combined)

/-- `AppServiceQueue.next` up to its `yield`. -/
def AppServiceQueue.next (owner_mxid : String) (now : Int) (stream : List StreamEntry) :
    Option (List StreamEntry × List StreamEntry × Events) :=
  nextFuel owner_mxid now stream.length stream

/-- Line 78 of `AppServiceQueue.next`: on normal exit of the scoped region
the handle `xdel`s every borrowed id.  On abnormal exit (exception or
cancellation thrown into the generator at the yield) this line never runs
and the stream is left as it was at the yield. -/
def AppServiceQueue.commit (streamAtYield batch : List StreamEntry) : List StreamEntry :=
  streamAtYield.filter (fun e => !((batch.map (fun b => b.1)).contains e.1))

/-! ### The HTTP deliverer (`as_http.AppServiceHTTPHandler.post_events`) -/

/-- What one `PUT` attempt of `AppServiceHTTPHandler.post_events` comes
back with: an `aiohttp.ClientError`, any other exception (the bare
`except Exception` arm), or an HTTP response status. -/
inductive AttemptOutcome where
  | connError : AttemptOutcome
  | fatal : AttemptOutcome
  | httpStatus (status : Nat) : AttemptOutcome
deriving DecidableEq, Repr

/-- An attempt outcome the loop retries on: a connection error or an HTTP
status ≥ 400 (an unexpected exception instead aborts at once). -/
def retryable : AttemptOutcome → Bool
  | .connError => true
  | .fatal => false
  | .httpStatus status => 400 ≤ status

/-- The `while attempt < retries` loop of
`AppServiceHTTPHandler.post_events` (lines 36-59).  `outcomes i` is what
request number `i` (0-based) comes back with; `attempt` counts requests
already issued, `backoff` is the current sleep length in seconds and
`remaining = retries - attempt`.  Returns the result string, the total
number of requests issued, and the list of sleeps performed, in order. -/
def httpLoop (outcomes : Nat → AttemptOutcome) (attempt : Nat) (backoff : ℚ) :
    Nat → String × Nat × List ℚ
  | 0 => ("http-gave-up", attempt, [])
  | remaining + 1 =>
    match outcomes attempt with
    | .fatal => ("http-gave-up", attempt + 1, [])
    | .httpStatus status =>
      if status < 400 then ("ok", attempt + 1, [])
      else if remaining > 0 then
        -- `if attempt < retries: await asyncio.sleep(backoff); backoff *= 1.5`
        let r := httpLoop outcomes (attempt + 1) (backoff * (3 / 2)) remaining
        (r.1, r.2.1, backoff :: r.2.2)
      else ("http-gave-up", attempt + 1, [])
    | .connError =>
      if remaining > 0 then
        let r := httpLoop outcomes (attempt + 1) (backoff * (3 / 2)) remaining
        (r.1, r.2.1, backoff :: r.2.2)
      else ("http-gave-up", attempt + 1, [])

/-- `AppServiceHTTPHandler.post_events`: `retries = 10 if len(events.pdu)
> 0 else 2`, `backoff = 1`, then the retry loop.  The envelope matters
only through `len(events.pdu)`. -/
def AppServiceHTTPHandler.post_events (numPdu : Nat) (outcomes : Nat → AttemptOutcome) :
    String × Nat × List ℚ :=
  httpLoop outcomes 0 1 (if numPdu > 0 then 10 else 2)

/-! ### The event router (`as_proxy.AppServiceProxy`) -/

/-- `AppService.find(owner, prefix)`: lookup in the appservice table by
(owner, prefix).  The relational store and its cache are embedded as the
authoritative association list `azs`. -/
def AppService.find (azs : List AppService) (owner pfx : String) : Option AppService :=
  azs.find? (fun az => az.owner == owner && az.prefix_ == pfx)

/-- Modelled from the spec: the `Room` table class
(`database/table/room.py`) is not in the source tree (only its callers
are).  Spec §3: "Room — a mapping from a Matrix room identifier to the
owning appservice id, plus a soft-deleted flag ... Deletion is soft
(`deleted=true`) so stale traffic is dropped silently": `Room.get`
resolves only rooms that are not soft-deleted. -/
def Room.get (rooms : List Room) (room_id : String) : Option Room :=
  rooms.find? (fun r => r.id == room_id && !r.deleted)

/-- `AppServiceProxy._get_az_from_user_id` (lines 105-114): strip the
ghost prefix and suffix, split the localpart on `_` (needing at least
three parts, else the `ValueError` arm returns `None`) and look the
appservice up by (owner, prefix). -/
def _get_az_from_user_id (azs : List AppService) (mxid_prefix_ mxid_suffix user_id : String) :
    Option AppService :=
  if user_id = "" || !user_id.startsWith mxid_prefix_ || !user_id.endsWith mxid_suffix then
    none
  else
    -- Python `user_id[len(prefix):-len(suffix)]`; a negative-zero bound
    -- (empty suffix) slices to the empty string.
    let localpart :=
      if mxid_suffix.length = 0 then ""
      else (user_id.drop mxid_prefix_.length).dropRight mxid_suffix.length
    match localpart.splitOn "_" with
    | owner :: pfx :: _ :: _ => AppService.find azs owner pfx
    | _ => none

/-- `AppServiceProxy.register_room` (lines 116-130): a `m.room.member`
event whose `state_key` parses as a bridged ghost registers a new room
owned by that ghost's appservice.  A missing `type` or `state_key` key
raises `KeyError`, caught at line 121 (`None`).  The router only calls
this with a truthy `room_id`, so the uncaught `event["room_id"]` access
at line 127 always succeeds; `getD` keeps the embedding total. -/
def register_room (azs : List AppService) (mxid_prefix_ mxid_suffix : String)
    (event : MatrixEvent) : Option Room :=
  match event.type with
  | none => none
  | some t =>
    if t ≠ "m.room.member" then none
    else
      match event.state_key with
      | none => none
      | some sk =>
        if !sk.startsWith mxid_prefix_ then none
        else
          match _get_az_from_user_id azs mxid_prefix_ mxid_suffix sk with
          | none => none
          | some az => some { id := event.room_id.getD "", owner := az.id, deleted := false }

/-- Python truthiness of `event.get("room_id")`: a missing key or an empty
string both fail `if room_id:`. -/
def truthyRoomId : Option String → Option String
  | some "" => none
  | x => x

/-- Lookup in the router's `output` map (`Dict[UUID, Events]`). -/
def outLookup (output : List (Nat × Events)) (azId : Nat) : Option Events :=
  (output.find? (fun p => p.1 == azId)).map (fun p => p.2)

/-- Store into the router's `output` map (Python dict assignment: update
the existing key in place, else append at the end). -/
def outStore : List (Nat × Events) → Nat → Events → List (Nat × Events)
  | [], azId, e => [(azId, e)]
  | p :: rest, azId, e =>
    if p.1 = azId then (azId, e) :: rest else p :: outStore rest azId e

/-- Lines 142-144 of `_collect_events`: append the event to the `edu` or
`pdu` of a bucket and its type (`event.get("type", "")`) to `types`. -/
def bucketAppend (cur : Events) (event : MatrixEvent) (ephemeral : Bool) : Events :=
  if ephemeral then
    { cur with edu := cur.edu ++ [event], types := cur.types ++ [event.type.getD ""] }
  else
    { cur with pdu := cur.pdu ++ [event], types := cur.types ++ [event.type.getD ""] }

/-- Lines 142-144 of `_collect_events` as a map update: `output[room.owner]`
(a `defaultdict` inserting `Events(txn_id)` on first access) gets the
event and its type appended. -/
def appendToOutput (output : List (Nat × Events)) (txn_id : String) (azId : Nat)
    (event : MatrixEvent) (ephemeral : Bool) : List (Nat × Events) :=
  outStore output azId
    (bucketAppend ((outLookup output azId).getD (emptyEvents txn_id)) event ephemeral)

/-- The router's per-transaction mutable state: the `output` map, the
dropped-events counter (`DROPPED_EVENTS` total) and the room store. -/
structure CollectState where
  output : List (Nat × Events)
  dropped : Nat
  rooms : List Room
deriving DecidableEq, Repr

/-- The body of the `for event in events` loop of
`AppServiceProxy._collect_events` (lines 134-150) for one event: resolve
the room; on a miss for a non-ephemeral event try `register_room` (which
also inserts the new room); append to the owner's bucket, else increment
the dropped-events metric.  An event with no (or empty) `room_id` falls
through the `if room_id:` without touching anything. -/
def collect_one (azs : List AppService) (mxid_prefix_ mxid_suffix txn_id : String)
    (ephemeral : Bool) (st : CollectState) (event : MatrixEvent) : CollectState :=
  match truthyRoomId event.room_id with
  | none => st
  | some rid =>
    let resolved :=
      match Room.get st.rooms rid with
      | some r => (some r, st.rooms)
      | none =>
        if ephemeral then (none, st.rooms)
        else
          match register_room azs mxid_prefix_ mxid_suffix event with
          | some r => (some r, st.rooms ++ [r])
          | none => (none, st.rooms)
    match resolved with
    | (some r, rooms') =>
      { st with
        output := appendToOutput st.output txn_id r.owner event ephemeral
        rooms := rooms' }
    | (none, rooms') => { st with dropped := st.dropped + 1, rooms := rooms' }

/-- `AppServiceProxy._collect_events`: the loop over the event list. -/
def _collect_events (azs : List AppService) (mxid_prefix_ mxid_suffix txn_id : String)
    (ephemeral : Bool) (st : CollectState) (events : List MatrixEvent) : CollectState :=
  events.foldl (collect_one azs mxid_prefix_ mxid_suffix txn_id ephemeral) st

/-! ### The delivery result (`as_proxy.AppServiceProxy.post_events`) -/

/-- A Python value as it flows through the untyped `ok` variable of
`AppServiceProxy.post_events`: a real bool or the string returned by
`AppServiceHTTPHandler.post_events`. -/
inductive PyVal where
  | pyBool (b : Bool) : PyVal
  | pyStr (s : String) : PyVal
deriving DecidableEq, Repr

/-- Python truthiness of such a value (`if ok:`): a non-empty string is
truthy. -/
def pyTruthy : PyVal → Bool
  | .pyBool b => b
  | .pyStr s => s ≠ ""

/-- `AppServiceProxy.post_events` (lines 80-103), delivery dispatch: for a
pull (websocket) appservice it calls `self.server.as_websocket.post_events`
— an attribute `AppServiceWebsocketHandler` does not define in this source
tree, so the call raises `AttributeError`, the `except Exception` arm logs
it and `ok` keeps its initial `False`.  For a push appservice with an
address, `ok` is bound to the STRING returned by
`AppServiceHTTPHandler.post_events` ("ok" or "http-gave-up"); with no
address `ok` stays `False`.  The function returns `ok` unchanged (its
`-> bool` annotation notwithstanding). -/
def AppServiceProxy.post_events (az : AppService) (httpResult : String) : PyVal :=
  if az.push = false then .pyBool false
  else if az.address ≠ "" then .pyStr httpResult
  else .pyBool false

/-- Lines 174-178 of `AppServiceProxy._send_transactions`: for each owner
in the synchronous set, the awaited `post_events` value is bound in the
response map under `str(appservice.id)`. -/
def _send_transactions_binding (az : AppService) (synchronous_to : List String)
    (httpResult : String) : List (String × PyVal) :=
  if toString az.id ∈ synchronous_to then
    [(toString az.id, AppServiceProxy.post_events az httpResult)]
  else []

/-! ### The websocket deliverer (`as_websocket.AppServiceWebsocketHandler`) -/

/-- The fields of `websocket_util.WebsocketHandler` that
`as_websocket.py` reads and writes: the negotiated protocol version
(`X-Mautrix-Websocket-Version`), the consecutive-timeout counter and the
dead flag. -/
structure WebsocketHandler where
  proto : Nat
  timeouts : Nat
  dead : Bool := false
deriving DecidableEq, Repr

/-- Line 375 of `_consume_queue_one`: `timeout = FIRST_SEND_TIMEOUT if
ws.timeouts == 0 else RETRY_SEND_TIMEOUT`. -/
def chosenTimeout (ws : WebsocketHandler) : Nat :=
  if ws.timeouts = 0 then FIRST_SEND_TIMEOUT else RETRY_SEND_TIMEOUT

/-- The timeout `_send_next_txn` (lines 316-345) actually passes to
`asyncio.wait_for` around the transaction request: the chosen timeout for
a v3+ client, always `RETRY_SEND_TIMEOUT` for a v2 client, and no wait at
all (fire-and-forget `ws.send`) for a v1 client. -/
def sendWaitTimeout (ws : WebsocketHandler) (timeout : Nat) : Option Nat :=
  if ws.proto ≥ 3 then some timeout
  else if ws.proto ≥ 2 then some RETRY_SEND_TIMEOUT
  else none

/-- How the client/transport behaves for one transaction frame: it acks,
never responds (the wait times out), or the request errors. -/
inductive SendOutcome where
  | ack : SendOutcome
  | noResponse : SendOutcome
  | err : SendOutcome
deriving DecidableEq, Repr

/-- How `_send_next_txn` terminates. -/
inductive SendTxnResult where
  /-- Fell through to `ws.timeouts = 0` and the success metrics. -/
  | ok : SendTxnResult
  /-- v3+: the `asyncio.TimeoutError` of the wait propagates to the caller. -/
  | raisedTimeout : SendTxnResult
  /-- v2: the timeout is caught, `ws.timeouts += 1`, failed metrics, `return`. -/
  | v2Dropped : SendTxnResult
  /-- Any other exception propagates. -/
  | raisedErr : SendTxnResult
deriving DecidableEq, Repr

/-- `AppServiceWebsocketHandler._send_next_txn` (lines 316-348): protocol
dispatch on one transaction frame.  For a v1 client no response is
awaited, so `noResponse` still falls through to the success epilogue. -/
def _send_next_txn (ws : WebsocketHandler) (outcome : SendOutcome) :
    WebsocketHandler × SendTxnResult :=
  if ws.proto ≥ 3 then
    match outcome with
    | .ack => ({ ws with timeouts := 0 }, .ok)
    | .noResponse => (ws, .raisedTimeout)
    | .err => (ws, .raisedErr)
  else if ws.proto ≥ 2 then
    match outcome with
    | .ack => ({ ws with timeouts := 0 }, .ok)
    | .noResponse => ({ ws with timeouts := ws.timeouts + 1 }, .v2Dropped)
    | .err => (ws, .raisedErr)
  else
    match outcome with
    | .err => (ws, .raisedErr)
    | _ => ({ ws with timeouts := 0 }, .ok)

/-- What one pass of `_consume_queue_one` leaves behind: the connection
state, the close the handler scheduled (if any), and whether the scoped
queue handle exited normally (committing, i.e. deleting, the borrowed
batch) or abnormally (leaving it on the stream). -/
structure ConsumeResult where
  ws : WebsocketHandler
  closeCode : Option Nat
  committed : Bool
deriving DecidableEq, Repr

/-- `AppServiceWebsocketHandler._consume_queue_one` (lines 372-407) after
the queue handle yielded a batch.  `txnEmpty` is whether the yielded
envelope is empty after the second `pop_expired_pdu` (lines 379-387), in
which case no frame is sent and the handle just commits.  A propagating
`TimeoutError` increments `ws.timeouts`, closes with 4002 once the limit
is reached, and aborts the handle so the batch stays on the stream; any
other exception also aborts the handle. -/
def _consume_queue_one (ws : WebsocketHandler) (txnEmpty : Bool) (outcome : SendOutcome) :
    ConsumeResult :=
  if txnEmpty then { ws := ws, closeCode := none, committed := true }
  else
    match _send_next_txn ws outcome with
    | (ws', .ok) => { ws := ws', closeCode := none, committed := true }
    | (ws', .v2Dropped) => { ws := ws', closeCode := none, committed := true }
    | (ws', .raisedTimeout) =>
      let ws'' := { ws' with timeouts := ws'.timeouts + 1 }
      { ws := ws''
        closeCode :=
          if ws''.timeouts ≥ TIMEOUT_COUNT_LIMIT then some WS_NOT_ACKNOWLEDGED else none
        committed := false }
    | (ws', .raisedErr) => { ws := ws', closeCode := none, committed := false }

/-- The local websocket table `websockets: dict[UUID, WebsocketHandler]`,
with connections named by an identifier `Nat`. -/
abbrev WsTable := List (Nat × Nat)

/-- Lookup in the websocket table. -/
def wsLookup (table : WsTable) (azId : Nat) : Option Nat :=
  (table.find? (fun p => p.1 == azId)).map (fun p => p.2)

/-- `AppServiceWebsocketHandler.close_stale_az_websocket` (lines 248-260):
pop any existing entry for this appservice and close it with 4001
`conn_replaced`.  Returns the table and the list of (connection, close
code) pairs closed. -/
def close_stale_az_websocket (table : WsTable) (azId : Nat) : WsTable × List (Nat × Nat) :=
  match table.find? (fun p => p.1 == azId) with
  | none => (table, [])
  | some p => (table.filter (fun q => q.1 ≠ azId), [(p.2, WS_CLOSE_REPLACED)])

/-- `AppServiceWebsocketHandler.handle_ws` (lines 262-296) up to the point
the read loop starts: reject while stopping, reject a push-mode
appservice, close any stale local connection with 4001 and install the
new connection in the table.  Returns the table and closes, or the error
status string raised. -/
def handle_ws (stopping : Bool) (az : AppService) (table : WsTable) (newWs : Nat) :
    Except String (WsTable × List (Nat × Nat)) :=
  if stopping then .error "server_shutting_down"
  else if az.push then .error "appservice_ws_not_enabled"
  else
    let popped := close_stale_az_websocket table az.id
    .ok ((az.id, newWs) :: popped.1, popped.2)

/-! ### `get_queue` and the `AppServiceQueue` constructor (C10) -/

/-- The parameters of `AppServiceQueue.__init__` (as_queue.py lines
30-36), none of which has a default. -/
def appServiceQueueInitParams : List String :=
  ["redis", "mxid_suffix", "az", "report_expired_pdu"]

/-- The keyword arguments `AppServiceWebsocketHandler.get_queue` (lines
350-354) passes to the `AppServiceQueue` constructor.  Python evaluates
this call before `dict.setdefault` runs, so it happens even when the
queue is already cached. -/
def getQueueSuppliedArgs : List String :=
  ["redis", "mxid_suffix", "az"]

/-- Python's call check: a call raises `TypeError` when a parameter
without a default is not supplied. -/
def pythonCallCheck (required supplied : List String) : Except String Unit :=
  match required.filter (fun p => !(supplied.contains p)) with
  | [] => .ok ()
  | missing =>
    .error ("TypeError: missing required argument: " ++ String.intercalate ", " missing)

/-! ### Spec-side reference definitions -/

/-- The spec's words for the merge rule (§4.C): "append `T.txn_id` to
`C.txn_id` joined by commas" — the plain comma-join of a list of ids,
stated independently of the code so the fold of `_append_txn` can be
compared with it. -/
def specCommaJoin : List String → String
  | [] => ""
  | [t] => t
  | t :: ts => t ++ "," ++ specCommaJoin ts

/-! ### Concrete fixtures for witnesses and counterexamples -/

/-- A PDU from a non-owner sender with `origin_server_ts = 0`: stale at
any `now > 180000`. -/
def staleEvt : MatrixEvent :=
  { type := some "m.room.message", room_id := some "!r:example.com", state_key := none,
    sender := "@other:example.com", origin_server_ts := 0 }

/-- A queue entry whose only content is one stale PDU (empty after
eviction). -/
def cT1 : Events :=
  { txn_id := "t1", pdu := [staleEvt], edu := [], types := [], otk_count := [],
    device_lists := { changed := [], left := [] } }

def cT2 : Events := { cT1 with txn_id := "t2" }

/-- A two-entry stream that combines to an empty envelope after stale-PDU
eviction at `now = 200000`. -/
def cStream : List StreamEntry := [(1, cT1), (2, cT2)]

/-- A fresh PDU (`origin_server_ts = now`, retained by eviction). -/
def freshEvt : MatrixEvent := { staleEvt with origin_server_ts := 200000 }

/-- A queue entry carrying one fresh PDU. -/
def wT : Events :=
  { txn_id := "t3", pdu := [freshEvt], edu := [], types := ["m.room.message"],
    otk_count := [], device_lists := { changed := [], left := [] } }

/-- A one-entry stream that yields. -/
def wStream : List StreamEntry := [(5, wT)]

/-- The envelope `AppServiceQueue.next` combines out of `wStream`. -/
def wCombined : Events :=
  { txn_id := "t3", pdu := [freshEvt], edu := [], types := ["m.room.message"],
    otk_count := [], device_lists := { changed := [], left := [] } }

/-- A push-mode appservice with an address, as routed to the HTTP
deliverer. -/
def azPushA : AppService :=
  { id := 1, owner := "acme", prefix_ := "telegram", bot := "bot",
    address := "http://bridge.example.com", hs_token := "hs", as_token := "as",
    push := true }

/-- An envelope with an empty `txn_id`. -/
def cexT1 : Events := emptyEvents ""

/-- An envelope with `txn_id = "x"`. -/
def cexT2 : Events := emptyEvents "x"

/-- An event carrying no `room_id` at all. -/
def presenceEvt : MatrixEvent :=
  { type := some "m.presence", room_id := none, state_key := none,
    sender := "@u:example.com", origin_server_ts := 0 }

/-- An empty router state. -/
def st0 : CollectState := { output := [], dropped := 0, rooms := [] }

/-- A v2 websocket connection with no timeout observed yet. -/
def wsV2 : WebsocketHandler := { proto := 2, timeouts := 0 }

/-- A v3 websocket connection with six timeouts observed. -/
def wsV3 : WebsocketHandler := { proto := 3, timeouts := 6 }

/-! ## Claims -/

/-- C10: `AppServiceWebsocketHandler.get_queue` does NOT supply every
argument `AppServiceQueue.__init__` requires: `report_expired_pdu` has no
default and is not passed, so the constructor call raises `TypeError` and
the queue-consumer task spawned at handshake dies immediately.  The claim
is refuted by evaluating the call check of the source's argument lists. -/
theorem get_queue_missing_required_arg :
    pythonCallCheck appServiceQueueInitParams getQueueSuppliedArgs =
      .error "TypeError: missing required argument: report_expired_pdu" ∧
    "report_expired_pdu" ∈ appServiceQueueInitParams ∧
    "report_expired_pdu" ∉ getQueueSuppliedArgs := by
  refine ⟨rfl, by decide, by decide⟩

/-- C3: for a push-mode appservice whose HTTP delivery gives up,
`AppServiceProxy.post_events` binds `ok` to the STRING "http-gave-up"
returned by `AppServiceHTTPHandler.post_events`; the string is truthy, so
the synchronous-response map binds the appservice's id to a truthy value,
not to `false` as the claim states. -/
theorem post_events_gave_up_is_truthy :
    AppServiceProxy.post_events azPushA "http-gave-up" = .pyStr "http-gave-up" ∧
    pyTruthy (.pyStr "http-gave-up") = true ∧
    _send_transactions_binding azPushA [toString azPushA.id] "http-gave-up" =
      [("1", .pyStr "http-gave-up")] ∧
    (PyVal.pyStr "http-gave-up" : PyVal) ≠ .pyBool false := by
  refine ⟨rfl, by decide, by decide, by decide⟩

/-- C6 counterexample: a v2 connection with `timeouts = 0` gets a
30-second response timeout (`_send_next_txn` always waits
`RETRY_SEND_TIMEOUT` for v2), not the claimed 5 seconds. -/
theorem send_timeout_v2_counterexample :
    wsV2.timeouts = 0 ∧
    sendWaitTimeout wsV2 (chosenTimeout wsV2) = some RETRY_SEND_TIMEOUT ∧
    sendWaitTimeout wsV2 (chosenTimeout wsV2) ≠ some FIRST_SEND_TIMEOUT := by
  refine ⟨rfl, by decide, by decide⟩

/-- C6 (amended to v3+ sends): the response timeout passed to
`asyncio.wait_for` is 5 s when `timeouts = 0` and 30 s otherwise; on a
send timeout `timeouts` is incremented, the connection is closed with
4002 (`transactions_not_acknowledged`) exactly when the incremented
counter reaches `TIMEOUT_COUNT_LIMIT = 7`, and the queue handle exits
abnormally so the borrowed batch stays on the stream. -/
theorem consume_queue_one_v3_timeout (ws : WebsocketHandler) (h3 : ws.proto ≥ 3) :
    sendWaitTimeout ws (chosenTimeout ws) =
      some (if ws.timeouts = 0 then FIRST_SEND_TIMEOUT else RETRY_SEND_TIMEOUT) ∧
    (_consume_queue_one ws false .noResponse).ws.timeouts = ws.timeouts + 1 ∧
    ((_consume_queue_one ws false .noResponse).closeCode = some WS_NOT_ACKNOWLEDGED ↔
      ws.timeouts + 1 ≥ TIMEOUT_COUNT_LIMIT) ∧
    (_consume_queue_one ws false .noResponse).committed = false ∧
    WS_NOT_ACKNOWLEDGED = 4002 := by
  have hsend : _send_next_txn ws .noResponse = (ws, .raisedTimeout) := by
    simp [_send_next_txn, h3]
  have hcons : _consume_queue_one ws false .noResponse =
      { ws := { ws with timeouts := ws.timeouts + 1 }
        closeCode :=
          if ws.timeouts + 1 ≥ TIMEOUT_COUNT_LIMIT then some WS_NOT_ACKNOWLEDGED else none
        committed := false } := by
    simp [_consume_queue_one, hsend]
  refine ⟨by simp [sendWaitTimeout, chosenTimeout, h3], by rw [hcons], ?_, by rw [hcons], rfl⟩
  rw [hcons]
  by_cases h : ws.timeouts + 1 ≥ TIMEOUT_COUNT_LIMIT
  · simp [h]
  · simp [h]

/-- C6 witness: the amended theorem applied to a v3 connection with six
prior timeouts: the seventh timeout closes the socket with 4002 and the
batch is not committed. -/
theorem consume_queue_one_v3_timeout_witness :
    (_consume_queue_one wsV3 false .noResponse).closeCode = some WS_NOT_ACKNOWLEDGED ∧
    (_consume_queue_one wsV3 false .noResponse).committed = false :=
  ⟨((consume_queue_one_v3_timeout wsV3 (by decide)).2.2.1).mpr (by decide),
   (consume_queue_one_v3_timeout wsV3 (by decide)).2.2.2.1⟩

/-- C2 counterexample: a batch of two entries that combines to an empty
envelope after eviction.  Line 72 `xdel`s only `stream_id` — the loop
variable, holding the LAST id of the batch — so entry `(1, cT1)` of the
batch is still in the stream when the loop continues, refuting "every
entry of that batch is deleted from the stream". -/
theorem queue_drop_empty_counterexample :
    (combineBatch "@acme:example.com" 200000 (cStream.take 10)).is_empty = true ∧
    queueIter "@acme:example.com" 200000 cStream = .emptyDropped [(1, cT1)] ∧
    (1, cT1) ∈ cStream.take 10 ∧
    ¬((1, cT1) ∉ ([(1, cT1)] : List StreamEntry)) := by
  refine ⟨by decide, by decide, by decide, by decide⟩

/-- C2 (amended): when the combined envelope of a read batch is empty,
only the batch's last-read entry is deleted before the loop continues
(no delivery is attempted); every other entry of the stream — including
the rest of the batch — remains and is re-read on the next iteration. -/
theorem queue_drop_empty_amended (owner_mxid : String) (now : Int)
    (stream : List StreamEntry)
    (hne : (stream.take 10).isEmpty = false)
    (he : (combineBatch owner_mxid now (stream.take 10)).is_empty = true) :
    queueIter owner_mxid now stream =
      .emptyDropped (stream.filter (fun e => e.1 ≠ lastStreamId (stream.take 10))) ∧
    (∀ e ∈ stream, e.1 ≠ lastStreamId (stream.take 10) →
      e ∈ stream.filter (fun e => e.1 ≠ lastStreamId (stream.take 10))) := by
  constructor
  · simp only [queueIter, hne, he]
    simp
  · intro e he' hid
    simp only [List.mem_filter]
    exact ⟨he', by simpa using hid⟩

/-- C2 witness: the amended theorem at the concrete two-entry stream. -/
theorem queue_drop_empty_amended_witness :
    queueIter "@acme:example.com" 200000 cStream =
      .emptyDropped (cStream.filter (fun e => e.1 ≠ lastStreamId (cStream.take 10))) :=
  (queue_drop_empty_amended "@acme:example.com" 200000 cStream (by decide) (by decide)).1

/-- C7: the websocket handshake is rejected exactly while the server is
stopping or for a push-mode appservice; when it completes, the local
table maps the appservice to the new connection only, and any prior local
entry has been removed and closed with 4001 (`conn_replaced`). -/
theorem handle_ws_single_active_local (stopping : Bool) (az : AppService)
    (table : WsTable) (newWs : Nat) :
    ((handle_ws stopping az table newWs).isOk ↔ (stopping = false ∧ az.push = false)) ∧
    (∀ table' closes, handle_ws stopping az table newWs = .ok (table', closes) →
      wsLookup table' az.id = some newWs ∧
      (∀ p ∈ table', p.1 = az.id → p.2 = newWs) ∧
      (∀ old, wsLookup table az.id = some old → closes = [(old, WS_CLOSE_REPLACED)]) ∧
      (wsLookup table az.id = none → closes = [])) ∧
    WS_CLOSE_REPLACED = 4001 := by
  refine ⟨?_, ?_, rfl⟩
  · cases stopping with
    | true => simp [handle_ws, Except.isOk, Except.toBool]
    | false =>
      cases hp : az.push with
      | true => simp [handle_ws, hp, Except.isOk, Except.toBool]
      | false => simp [handle_ws, hp, Except.isOk, Except.toBool]
  · intro table' closes hok
    cases stopping with
    | true => simp [handle_ws] at hok
    | false =>
      cases hp : az.push with
      | true => simp [handle_ws, hp] at hok
      | false =>
        rcases hf : table.find? (fun q => q.1 == az.id) with _ | q
        · simp only [handle_ws, hp, Bool.false_eq_true, if_false,
            close_stale_az_websocket, hf, Except.ok.injEq, Prod.mk.injEq] at hok
          obtain ⟨htab, hcl⟩ := hok
          subst htab
          subst hcl
          refine ⟨?_, ?_, ?_, fun _ => rfl⟩
          · rw [wsLookup, List.find?_cons_of_pos _ (by simp)]
            rfl
          · intro p hp' hpid
            rcases List.mem_cons.mp hp' with h | h
            · rw [h]
            · have := List.find?_eq_none.mp hf _ h
              simp [hpid] at this
          · intro old hold
            rw [wsLookup, hf] at hold
            simp at hold
        · simp only [handle_ws, hp, Bool.false_eq_true, if_false,
            close_stale_az_websocket, hf, Except.ok.injEq, Prod.mk.injEq] at hok
          obtain ⟨htab, hcl⟩ := hok
          subst htab
          subst hcl
          have hq : q.1 = az.id := by
            have := List.find?_some hf
            simpa using this
          refine ⟨?_, ?_, ?_, ?_⟩
          · rw [wsLookup, List.find?_cons_of_pos _ (by simp)]
            rfl
          · intro p hp' hpid
            rcases List.mem_cons.mp hp' with h | h
            · rw [h]
            · have := (List.mem_filter.mp h).2
              simp [hpid] at this
          · intro old hold
            rw [wsLookup, hf] at hold
            simp at hold
            simp [hold]
          · intro hnone
            rw [wsLookup, hf] at hnone
            simp at hnone

/-- C5: a PDU is evicted (removed from `pdu`, collected into the expired
list exactly once) iff it is older than `MAX_PDU_AGE_MS = 180000` ms and
its sender is not the owner mxid `"@" + owner + mxid_suffix`; a PDU
failing either condition is retained.  Settled against the spec-modelled
`Events.pop_expired_pdu` with the constant and the owner-mxid format
taken from `as_queue.py`. -/
theorem pop_expired_pdu_policy (e : Events) (owner mxid_suffix : String) (now : Int)
    (p : MatrixEvent) (hp : e.pdu.count p = 1) :
    ((now - p.origin_server_ts > MAX_PDU_AGE_MS ∧ p.sender ≠ ownerMxid owner mxid_suffix) →
      ((e.pop_expired_pdu (ownerMxid owner mxid_suffix) MAX_PDU_AGE_MS now).2.count p = 1 ∧
        p ∉ (e.pop_expired_pdu (ownerMxid owner mxid_suffix) MAX_PDU_AGE_MS now).1.pdu)) ∧
    (¬(now - p.origin_server_ts > MAX_PDU_AGE_MS ∧ p.sender ≠ ownerMxid owner mxid_suffix) →
      (p ∉ (e.pop_expired_pdu (ownerMxid owner mxid_suffix) MAX_PDU_AGE_MS now).2 ∧
        (e.pop_expired_pdu (ownerMxid owner mxid_suffix) MAX_PDU_AGE_MS now).1.pdu.count p
          = 1)) ∧
    MAX_PDU_AGE_MS = 180000 := by
  simp only [Events.pop_expired_pdu]
  refine ⟨?_, ?_, rfl⟩
  · intro hcond
    have hstale : (decide (now - p.origin_server_ts > MAX_PDU_AGE_MS) &&
        decide (p.sender ≠ ownerMxid owner mxid_suffix)) = true := by
      simp only [Bool.and_eq_true, decide_eq_true_eq]
      exact hcond
    constructor
    · have hcf : (e.pdu.filter (fun q : MatrixEvent =>
          decide (now - q.origin_server_ts > MAX_PDU_AGE_MS) &&
          decide (q.sender ≠ ownerMxid owner mxid_suffix))).count p = e.pdu.count p :=
        List.count_filter hstale
      exact hcf.trans hp
    · intro hmem
      have := (List.mem_filter.mp hmem).2
      simp only [hstale] at this
      simp at this
  · intro hcond
    have hstale : (decide (now - p.origin_server_ts > MAX_PDU_AGE_MS) &&
        decide (p.sender ≠ ownerMxid owner mxid_suffix)) = false := by
      rw [← Bool.not_eq_true]
      intro hc
      exact hcond (by simpa only [Bool.and_eq_true, decide_eq_true_eq] using hc)
    constructor
    · intro hmem
      have := (List.mem_filter.mp hmem).2
      rw [hstale] at this
      exact Bool.false_ne_true this
    · have hcf : (e.pdu.filter (fun q : MatrixEvent =>
          !(decide (now - q.origin_server_ts > MAX_PDU_AGE_MS) &&
            decide (q.sender ≠ ownerMxid owner mxid_suffix)))).count p = e.pdu.count p :=
        List.count_filter (by rw [hstale]; rfl)
      exact hcf.trans hp

/-- C5 witness: the policy applied to a 200000 ms old PDU from a
non-owner sender: it lands in the expired list exactly once. -/
theorem pop_expired_pdu_policy_witness :
    (cT1.pop_expired_pdu (ownerMxid "acme" ":example.com") MAX_PDU_AGE_MS 200000).2.count
      staleEvt = 1 :=
  ((pop_expired_pdu_policy cT1 "acme" ":example.com" 200000 staleEvt (by decide)).1
    (by decide)).1

/-- Helper for C1: whatever yields out of the iterated read loop was the
current `xread` batch of the stream state at the yield. -/
theorem nextFuel_yield_shape (owner_mxid : String) (now : Int) :
    ∀ (fuel : Nat) (stream s' b : List StreamEntry) (c : Events),
      nextFuel owner_mxid now fuel stream = some (s', b, c) → b = s'.take 10 := by
  intro fuel
  induction fuel with
  | zero =>
    intro stream s' b c h
    simp [nextFuel] at h
  | succ n ih =>
    intro stream s' b c h
    rw [nextFuel] at h
    rcases hq : queueIter owner_mxid now stream with _ | s2 | ⟨s2, b2, c2⟩ <;> rw [hq] at h
    · simp at h
    · exact ih s2 s' b c h
    · simp only [Option.some.injEq, Prod.mk.injEq] at h
      obtain ⟨h1, h2, h3⟩ := h
      subst h1
      subst h2
      rw [queueIter] at hq
      by_cases hb : (stream.take 10).isEmpty
      · simp [hb] at hq
      · simp only [hb, Bool.false_eq_true, if_false] at hq
        by_cases he : (combineBatch owner_mxid now (stream.take 10)).is_empty
        · simp [he] at hq
        · simp only [he, Bool.false_eq_true, if_false, QueueIterResult.yielded.injEq] at hq
          obtain ⟨hs, hbb, _⟩ := hq
          rw [← hs, ← hbb]

/-- C1: when `AppServiceQueue.next` yields a borrowed batch, every entry
of the batch is still in the stream (nothing of the batch was deleted
before the yield); an abnormal exit of the scoped region leaves the
stream exactly as it was at the yield, so the next call's `xread` rereads
exactly that batch; only the normal-exit commit (line 78) deletes the
borrowed entries. -/
theorem queue_no_loss_on_abnormal_exit (owner_mxid : String) (now : Int)
    (stream s' b : List StreamEntry) (c : Events)
    (h : AppServiceQueue.next owner_mxid now stream = some (s', b, c)) :
    (∀ e ∈ b, e ∈ s') ∧
    b = s'.take 10 ∧
    (∀ e ∈ b, e ∉ AppServiceQueue.commit s' b) := by
  have hb : b = s'.take 10 :=
    nextFuel_yield_shape owner_mxid now stream.length stream s' b c h
  refine ⟨?_, hb, ?_⟩
  · intro e he
    exact List.take_subset 10 s' (hb ▸ he)
  · intro e he hmem
    have hpred := (List.mem_filter.mp hmem).2
    have hin : e.1 ∈ b.map (fun x => x.1) := List.mem_map_of_mem _ he
    rw [← List.elem_iff] at hin
    simp only [List.contains] at hpred
    rw [hin] at hpred
    simp at hpred

/-- C1 witness: the one-entry fresh stream yields, its batch is the
re-read prefix and survives an abnormal exit. -/
theorem queue_no_loss_on_abnormal_exit_witness :
    (5, wT) ∈ wStream ∧ (5, wT) ∉ AppServiceQueue.commit wStream wStream :=
  ⟨(queue_no_loss_on_abnormal_exit "@acme:example.com" 200000 wStream wStream wStream
      wCombined (by decide)).1 (5, wT) (by decide),
   (queue_no_loss_on_abnormal_exit "@acme:example.com" 200000 wStream wStream wStream
      wCombined (by decide)).2.2 (5, wT) (by decide)⟩

/-- Helper: storing under a key leaves every other key's binding alone. -/
theorem outStore_lookup_other (azId b : Nat) (e : Events) (hb : b ≠ azId) :
    ∀ output : List (Nat × Events),
      outLookup (outStore output azId e) b = outLookup output b := by
  intro output
  induction output with
  | nil =>
    rw [outStore, outLookup, outLookup]
    rw [List.find?_cons_of_neg _ (by simp [Ne.symm hb])]
  | cons p rest ih =>
    rw [outStore]
    by_cases hp : p.1 = azId
    · rw [if_pos hp]
      rw [outLookup, outLookup]
      rw [List.find?_cons_of_neg _ (by simp [Ne.symm hb])]
      rw [List.find?_cons_of_neg _ (by simp [hp, Ne.symm hb])]
    · rw [if_neg hp]
      by_cases hpb : p.1 = b
      · rw [outLookup, outLookup]
        rw [List.find?_cons_of_pos _ (by simp [hpb])]
        rw [List.find?_cons_of_pos _ (by simp [hpb])]
      · rw [outLookup, outLookup]
        rw [List.find?_cons_of_neg _ (by simp [hpb])]
        rw [List.find?_cons_of_neg _ (by simp [hpb])]
        exact ih

/-- Helper: storing under a key binds exactly the stored value. -/
theorem outStore_lookup_self (azId : Nat) (e : Events) :
    ∀ output : List (Nat × Events),
      outLookup (outStore output azId e) azId = some e := by
  intro output
  induction output with
  | nil =>
    rw [outStore, outLookup]
    rw [List.find?_cons_of_pos _ (by simp)]
    rfl
  | cons p rest ih =>
    rw [outStore]
    by_cases hp : p.1 = azId
    · rw [if_pos hp, outLookup]
      rw [List.find?_cons_of_pos _ (by simp)]
      rfl
    · rw [if_neg hp, outLookup]
      rw [List.find?_cons_of_neg _ (by simp [hp])]
      exact ih

/-- C4 counterexample: an event with no `room_id` (here an `m.presence`
EDU delivered in the PDU list) resolves to no room and registers none,
yet the dropped-events metric does NOT rise: the `if room_id:` guard
falls through without touching the state, refuting "the dropped-events
metric rises by exactly one for that event". -/
theorem collect_one_no_room_id_counterexample :
    collect_one [] "@pre" ":example.com" "t" false st0 presenceEvt = st0 ∧
    (collect_one [] "@pre" ":example.com" "t" false st0 presenceEvt).dropped = 0 ∧
    (collect_one [] "@pre" ":example.com" "t" false st0 presenceEvt).dropped ≠
      st0.dropped + 1 := by
  refine ⟨by decide, by decide, by decide⟩

/-- C4 (amended): an event whose `room_id` resolves to a known room with
owner `A` is appended only to the sub-transaction destined for `A` (and
its type to that bucket's `types`); an event with a `room_id` that neither
resolves nor registers a room appears in no sub-transaction and raises
the dropped-events metric by exactly one; an event with no (or empty)
`room_id` appears in no sub-transaction and changes nothing, the metric
included. -/
theorem collect_one_routing (azs : List AppService) (pre suf txn_id : String) (eph : Bool)
    (st : CollectState) (event : MatrixEvent) :
    (∀ rid room, truthyRoomId event.room_id = some rid →
      Room.get st.rooms rid = some room →
      ((collect_one azs pre suf txn_id eph st event).output =
          appendToOutput st.output txn_id room.owner event eph ∧
        outLookup (collect_one azs pre suf txn_id eph st event).output room.owner =
          some (bucketAppend ((outLookup st.output room.owner).getD (emptyEvents txn_id))
            event eph) ∧
        (∀ b, b ≠ room.owner →
          outLookup (collect_one azs pre suf txn_id eph st event).output b =
            outLookup st.output b) ∧
        (collect_one azs pre suf txn_id eph st event).dropped = st.dropped)) ∧
    (∀ rid, truthyRoomId event.room_id = some rid →
      Room.get st.rooms rid = none →
      (eph = true ∨ register_room azs pre suf event = none) →
      ((collect_one azs pre suf txn_id eph st event).output = st.output ∧
        (collect_one azs pre suf txn_id eph st event).dropped = st.dropped + 1)) ∧
    (truthyRoomId event.room_id = none →
      collect_one azs pre suf txn_id eph st event = st) := by
  refine ⟨?_, ?_, ?_⟩
  · intro rid room htr hget
    have hc : collect_one azs pre suf txn_id eph st event =
        { st with output := appendToOutput st.output txn_id room.owner event eph } := by
      rw [collect_one, htr]
      simp only [hget]
    rw [hc]
    refine ⟨rfl, ?_, ?_, rfl⟩
    · rw [appendToOutput, outStore_lookup_self]
    · intro b hb
      rw [appendToOutput, outStore_lookup_other _ _ _ hb]
  · intro rid htr hget hor
    have hc : collect_one azs pre suf txn_id eph st event =
        { st with dropped := st.dropped + 1 } := by
      rw [collect_one, htr]
      simp only [hget]
      rcases hor with he | hr
      · subst he
        rfl
      · cases eph with
        | true => rfl
        | false => simp [hr]
    rw [hc]
    exact ⟨rfl, rfl⟩
  · intro htr
    rw [collect_one, htr]

/-- Helper for C8: full characterisation of the retry loop, by induction
on the remaining attempt budget. -/
theorem httpLoop_spec (outcomes : Nat → AttemptOutcome) :
    ∀ (remaining attempt : Nat) (backoff : ℚ) (res : String) (made : Nat)
      (sleeps : List ℚ),
      httpLoop outcomes attempt backoff remaining = (res, made, sleeps) →
      attempt ≤ made ∧ made ≤ attempt + remaining ∧
      (0 < remaining → attempt + 1 ≤ made) ∧
      sleeps = (List.range (made - attempt - 1)).map (fun i => backoff * (3 / 2 : ℚ) ^ i) ∧
      (res = "ok" ↔ ∃ i, attempt ≤ i ∧ i < made ∧
        ∃ status, outcomes i = .httpStatus status ∧ status < 400) ∧
      ((∀ i, attempt ≤ i → i < attempt + remaining → retryable (outcomes i) = true) →
        (res = "http-gave-up" ∧ made = attempt + remaining)) := by
  intro remaining
  induction remaining with
  | zero =>
    intro attempt backoff res made sleeps h
    rw [httpLoop] at h
    injection h with h1 h'
    injection h' with h2 h3
    subst h1
    subst h2
    subst h3
    refine ⟨by omega, by omega, by omega, by simp, ?_, fun _ => ⟨rfl, by omega⟩⟩
    constructor
    · intro hok
      exact absurd hok (by decide)
    · rintro ⟨i, hi1, hi2, _⟩
      omega
  | succ n ih =>
    intro attempt backoff res made sleeps h
    rw [httpLoop] at h
    rcases ho : outcomes attempt with _ | _ | status <;> rw [ho] at h <;> dsimp only at h
    · -- connection error: retry or give up
      by_cases hn : n > 0
      · rw [if_pos hn] at h
        rcases hr : httpLoop outcomes (attempt + 1) (backoff * (3 / 2)) n with
          ⟨res_, made_, sleeps_⟩
        rw [hr] at h
        dsimp only at h
        injection h with h1 h'
        injection h' with h2 h3
        subst h1
        subst h2
        subst h3
        obtain ⟨ih1, ih2, ih3, ih4, ih5, ih6⟩ :=
          ih (attempt + 1) (backoff * (3 / 2)) res_ made_ sleeps_ hr
        have hmade : attempt + 2 ≤ made_ := ih3 hn
        refine ⟨by omega, by omega, by omega, ?_, ?_, ?_⟩
        · rw [ih4]
          have hk : made_ - attempt - 1 = (made_ - attempt - 2) + 1 := by omega
          rw [hk, List.range_succ_eq_map, List.map_cons, List.map_map]
          have hk2 : made_ - (attempt + 1) - 1 = made_ - attempt - 2 := by omega
          rw [hk2]
          refine congrArg₂ _ (by rw [pow_zero, mul_one]) ?_
          refine List.map_congr_left ?_
          intro a _
          simp only [Function.comp]
          rw [pow_succ]
          ring
        · rw [ih5]
          constructor
          · rintro ⟨i, hi1, hi2, hs⟩
            exact ⟨i, by omega, hi2, hs⟩
          · rintro ⟨i, hi1, hi2, hs⟩
            rcases Nat.eq_or_lt_of_le hi1 with hie | hie
            · obtain ⟨s, hss, _⟩ := hs
              rw [← hie, ho] at hss
              cases hss
            · exact ⟨i, by omega, hi2, hs⟩
        · intro hall
          obtain ⟨hg1, hg2⟩ := ih6 (fun i hi1 hi2 => hall i (by omega) (by omega))
          exact ⟨hg1, by omega⟩
      · rw [if_neg hn] at h
        injection h with h1 h'
        injection h' with h2 h3
        subst h1
        subst h2
        subst h3
        refine ⟨by omega, by omega, by omega, by simp, ?_, fun _ => ⟨rfl, by omega⟩⟩
        constructor
        · intro hok
          exact absurd hok (by decide)
        · rintro ⟨i, hi1, hi2, s, hss, _⟩
          have hia : i = attempt := by omega
          rw [hia, ho] at hss
          cases hss
    · -- unexpected exception: break at once
      injection h with h1 h'
      injection h' with h2 h3
      subst h1
      subst h2
      subst h3
      refine ⟨by omega, by omega, by omega, by simp, ?_, ?_⟩
      · constructor
        · intro hok
          exact absurd hok (by decide)
        · rintro ⟨i, hi1, hi2, s, hss, _⟩
          have hia : i = attempt := by omega
          rw [hia, ho] at hss
          cases hss
      · intro hall
        have hcontra := hall attempt (le_refl _) (by omega)
        rw [ho] at hcontra
        exact absurd hcontra (by decide)
    · -- got an HTTP status
      by_cases hst : status < 400
      · rw [if_pos hst] at h
        injection h with h1 h'
        injection h' with h2 h3
        subst h1
        subst h2
        subst h3
        refine ⟨by omega, by omega, by omega, by simp, ?_, ?_⟩
        · constructor
          · intro _
            exact ⟨attempt, le_refl _, by omega, status, ho, hst⟩
          · intro _
            rfl
        · intro hall
          have hcontra := hall attempt (le_refl _) (by omega)
          rw [ho, retryable] at hcontra
          simp at hcontra
          omega
      · rw [if_neg hst] at h
        by_cases hn : n > 0
        · rw [if_pos hn] at h
          rcases hr : httpLoop outcomes (attempt + 1) (backoff * (3 / 2)) n with
            ⟨res_, made_, sleeps_⟩
          rw [hr] at h
          dsimp only at h
          injection h with h1 h'
          injection h' with h2 h3
          subst h1
          subst h2
          subst h3
          obtain ⟨ih1, ih2, ih3, ih4, ih5, ih6⟩ :=
            ih (attempt + 1) (backoff * (3 / 2)) res_ made_ sleeps_ hr
          have hmade : attempt + 2 ≤ made_ := ih3 hn
          refine ⟨by omega, by omega, by omega, ?_, ?_, ?_⟩
          · rw [ih4]
            have hk : made_ - attempt - 1 = (made_ - attempt - 2) + 1 := by omega
            rw [hk, List.range_succ_eq_map, List.map_cons, List.map_map]
            have hk2 : made_ - (attempt + 1) - 1 = made_ - attempt - 2 := by omega
            rw [hk2]
            refine congrArg₂ _ (by rw [pow_zero, mul_one]) ?_
            refine List.map_congr_left ?_
            intro a _
            simp only [Function.comp]
            rw [pow_succ]
            ring
          · rw [ih5]
            constructor
            · rintro ⟨i, hi1, hi2, hs⟩
              exact ⟨i, by omega, hi2, hs⟩
            · rintro ⟨i, hi1, hi2, hs⟩
              rcases Nat.eq_or_lt_of_le hi1 with hie | hie
              · obtain ⟨s, hss, hlt⟩ := hs
                rw [← hie, ho] at hss
                rw [AttemptOutcome.httpStatus.injEq] at hss
                omega
              · exact ⟨i, by omega, hi2, hs⟩
          · intro hall
            obtain ⟨hg1, hg2⟩ := ih6 (fun i hi1 hi2 => hall i (by omega) (by omega))
            exact ⟨hg1, by omega⟩
        · rw [if_neg hn] at h
          injection h with h1 h'
          injection h' with h2 h3
          subst h1
          subst h2
          subst h3
          refine ⟨by omega, by omega, by omega, by simp, ?_, fun _ => ⟨rfl, by omega⟩⟩
          constructor
          · intro hok
            exact absurd hok (by decide)
          · rintro ⟨i, hi1, hi2, s, hss, hlt⟩
            have hia : i = attempt := by omega
            rw [hia, ho] at hss
            rw [AttemptOutcome.httpStatus.injEq] at hss
            omega

/-- C8: an HTTP delivery issues at most 2 requests for a PDU-less
envelope and at most 10 otherwise; the sleeps between consecutive
attempts are 1 s, 1.5 s, 2.25 s, ... (factor 1.5), with none after the
final attempt; the result is "ok" iff some issued attempt got a status
below 400, and "http-gave-up" when every attempt of the budget fails
with a connection error or a status ≥ 400. -/
theorem http_post_events_retry_budget (numPdu : Nat) (outcomes : Nat → AttemptOutcome) :
    (AppServiceHTTPHandler.post_events numPdu outcomes).2.1 ≤
      (if numPdu > 0 then 10 else 2) ∧
    (AppServiceHTTPHandler.post_events numPdu outcomes).2.2 =
      (List.range ((AppServiceHTTPHandler.post_events numPdu outcomes).2.1 - 1)).map
        (fun i => (3 / 2 : ℚ) ^ i) ∧
    ((AppServiceHTTPHandler.post_events numPdu outcomes).1 = "ok" ↔
      ∃ i, i < (AppServiceHTTPHandler.post_events numPdu outcomes).2.1 ∧
        ∃ status, outcomes i = .httpStatus status ∧ status < 400) ∧
    ((∀ i, i < (if numPdu > 0 then 10 else 2) → retryable (outcomes i) = true) →
      ((AppServiceHTTPHandler.post_events numPdu outcomes).1 = "http-gave-up" ∧
        (AppServiceHTTPHandler.post_events numPdu outcomes).2.1 =
          (if numPdu > 0 then 10 else 2))) := by
  rcases hp : AppServiceHTTPHandler.post_events numPdu outcomes with ⟨res, made, sleeps⟩
  rw [AppServiceHTTPHandler.post_events] at hp
  obtain ⟨h1, h2, h3, h4, h5, h6⟩ :=
    httpLoop_spec outcomes (if numPdu > 0 then 10 else 2) 0 1 res made sleeps hp
  dsimp only
  refine ⟨by omega, ?_, ?_, ?_⟩
  · rw [h4]
    have hm : made - 0 - 1 = made - 1 := by omega
    rw [hm]
    refine List.map_congr_left ?_
    intro a _
    rw [one_mul]
  · rw [h5]
    constructor
    · rintro ⟨i, _, hi2, hs⟩
      exact ⟨i, hi2, hs⟩
    · rintro ⟨i, hi2, hs⟩
      exact ⟨i, Nat.zero_le _, hi2, hs⟩
  · intro hall
    obtain ⟨hg1, hg2⟩ := h6 (fun i _ hi2 => hall i (by omega))
    exact ⟨hg1, by omega⟩

/-- Helper: updating an entry keeps its key. -/
theorem dictUpdateEntry_fst (m2 : List (String × Nat)) (p : String × Nat) :
    (dictUpdateEntry m2 p).1 = p.1 := by
  rw [dictUpdateEntry]
  cases m2.find? (fun q => q.1 == p.1) <;> rfl

/-- Helper: `find?` by key commutes with the entry update map. -/
theorem find?_map_dictUpdateEntry (m2 : List (String × Nat)) (k : String) :
    ∀ m1 : List (String × Nat),
      (m1.map (dictUpdateEntry m2)).find? (fun p => p.1 == k) =
        (m1.find? (fun p => p.1 == k)).map (dictUpdateEntry m2) := by
  intro m1
  induction m1 with
  | nil => rfl
  | cons p m1 ih =>
    rw [List.map_cons]
    by_cases hk : p.1 = k
    · rw [List.find?_cons_of_pos _ (by simp [dictUpdateEntry_fst, hk])]
      rw [List.find?_cons_of_pos _ (by simp [hk])]
      rfl
    · rw [List.find?_cons_of_neg _ (by simp [dictUpdateEntry_fst, hk])]
      rw [List.find?_cons_of_neg _ (by simp [hk])]
      exact ih

/-- Helper: `dlookup` distributes over list append as an `Option.or`. -/
theorem dlookup_append_or (m1 m2 : List (String × Nat)) (k : String) :
    dlookup (m1 ++ m2) k = (dlookup m1 k).or (dlookup m2 k) := by
  rw [dlookup, dlookup, dlookup, List.find?_append]
  cases m1.find? (fun p => p.1 == k) <;> simp

/-- Helper: when `m1` has no entry for `k`, the keys-only-in-`m2` filter
of `dictUnion` retains `k`'s binding. -/
theorem find?_filter_not_in_m1 (m1 : List (String × Nat)) (k : String)
    (h1 : m1.find? (fun p => p.1 == k) = none) :
    ∀ m2 : List (String × Nat),
      (m2.filter (fun q => !(m1.any (fun p => p.1 == q.1)))).find? (fun p => p.1 == k) =
        m2.find? (fun p => p.1 == k) := by
  intro m2
  induction m2 with
  | nil => rfl
  | cons q m2 ih =>
    by_cases hqk : q.1 = k
    · have hany : m1.any (fun p => p.1 == q.1) = false := by
        rw [← Bool.not_eq_true, List.any_eq_true]
        rintro ⟨p, hp, hpq⟩
        have := List.find?_eq_none.mp h1 p hp
        rw [hqk] at hpq
        exact this hpq
      rw [List.filter_cons_of_pos (by rw [hany]; rfl)]
      rw [List.find?_cons_of_pos _ (by simp [hqk])]
      rw [List.find?_cons_of_pos _ (by simp [hqk])]
    · by_cases hkeep : (m1.any (fun p => p.1 == q.1)) = false
      · rw [List.filter_cons_of_pos (by rw [hkeep]; rfl)]
        rw [List.find?_cons_of_neg _ (by simp [hqk])]
        rw [List.find?_cons_of_neg _ (by simp [hqk])]
        exact ih
      · rw [List.filter_cons_of_neg (by simpa using hkeep)]
        rw [List.find?_cons_of_neg _ (by simp [hqk])]
        exact ih

/-- Helper: when `m1` has an entry for `k`, the keys-only-in-`m2` filter
of `dictUnion` drops every `k` binding of `m2`. -/
theorem find?_filter_in_m1 (m1 : List (String × Nat)) (k : String) (p0 : String × Nat)
    (h1 : m1.find? (fun p => p.1 == k) = some p0) :
    ∀ m2 : List (String × Nat),
      (m2.filter (fun q => !(m1.any (fun p => p.1 == q.1)))).find? (fun p => p.1 == k) =
        none := by
  intro m2
  induction m2 with
  | nil => rfl
  | cons q m2 ih =>
    by_cases hqk : q.1 = k
    · have hany : m1.any (fun p => p.1 == q.1) = true := by
        rw [List.any_eq_true]
        refine ⟨p0, List.mem_of_find?_eq_some h1, ?_⟩
        have := List.find?_some h1
        rw [hqk]
        exact this
      rw [List.filter_cons_of_neg (by simp [hany])]
      exact ih
    · by_cases hkeep : (m1.any (fun p => p.1 == q.1)) = false
      · rw [List.filter_cons_of_pos (by rw [hkeep]; rfl)]
        rw [List.find?_cons_of_neg _ (by simp [hqk])]
        exact ih
      · rw [List.filter_cons_of_neg (by simpa using hkeep)]
        exact ih

/-- Helper: lookup in `dictUnion m1 m2` is lookup in `m2` first (later
entries win), then in `m1`. -/
theorem dlookup_dictUnion (m1 m2 : List (String × Nat)) (k : String) :
    dlookup (dictUnion m1 m2) k = (dlookup m2 k).or (dlookup m1 k) := by
  rw [dictUnion, dlookup_append_or]
  rcases h1 : m1.find? (fun p => p.1 == k) with _ | p0
  · have hA : dlookup (m1.map (dictUpdateEntry m2)) k = none := by
      rw [dlookup, find?_map_dictUpdateEntry, h1]
      rfl
    have hB : dlookup (m2.filter (fun q => !(m1.any (fun p => p.1 == q.1)))) k =
        dlookup m2 k := by
      rw [dlookup, find?_filter_not_in_m1 m1 k h1, dlookup]
    have hm1 : dlookup m1 k = none := by
      rw [dlookup, h1]
      rfl
    rw [hA, hB, hm1, Option.or_none]
    cases m2.find? (fun p => p.1 == k) <;> rfl
  · have hp0 : p0.1 = k := by
      have := List.find?_some h1
      simpa using this
    have hA : dlookup (m1.map (dictUpdateEntry m2)) k =
        some (dictUpdateEntry m2 p0).2 := by
      rw [dlookup, find?_map_dictUpdateEntry, h1]
      rfl
    have hB : dlookup (m2.filter (fun q => !(m1.any (fun p => p.1 == q.1)))) k =
        none := by
      rw [dlookup, find?_filter_in_m1 m1 k p0 h1]
      rfl
    rw [hA, hB, Option.or_none, dlookup, dlookup, h1]
    rw [dictUpdateEntry, hp0]
    rcases h2 : m2.find? (fun q => q.1 == k) with _ | q0 <;> simp [h2]

/-- Helper: the fold of `_append_txn` adds up `pdu`, `edu` and `types`
lengths. -/
theorem foldl_append_txn_lengths (ts : List Events) :
    ∀ acc : Events,
      (ts.foldl _append_txn acc).pdu.length =
        acc.pdu.length + (ts.map (fun t => t.pdu.length)).sum ∧
      (ts.foldl _append_txn acc).edu.length =
        acc.edu.length + (ts.map (fun t => t.edu.length)).sum ∧
      (ts.foldl _append_txn acc).types.length =
        acc.types.length + (ts.map (fun t => t.types.length)).sum := by
  induction ts with
  | nil =>
    intro acc
    simp
  | cons t ts ih =>
    intro acc
    obtain ⟨i1, i2, i3⟩ := ih (_append_txn acc t)
    have s1 : (_append_txn acc t).pdu.length = acc.pdu.length + t.pdu.length := by
      simp [_append_txn]
    have s2 : (_append_txn acc t).edu.length = acc.edu.length + t.edu.length := by
      simp [_append_txn]
    have s3 : (_append_txn acc t).types.length = acc.types.length + t.types.length := by
      simp [_append_txn]
    rw [List.foldl_cons]
    refine ⟨?_, ?_, ?_⟩
    · rw [i1, s1, List.map_cons, List.sum_cons]
      omega
    · rw [i2, s2, List.map_cons, List.sum_cons]
      omega
    · rw [i3, s3, List.map_cons, List.sum_cons]
      omega

/-- Helper: glueing a comma-joined head back into the join. -/
theorem specCommaJoin_glue (a b : String) (l : List String) :
    specCommaJoin ((a ++ "," ++ b) :: l) = specCommaJoin (a :: b :: l) := by
  cases l with
  | nil => rfl
  | cons c l' =>
    show (a ++ "," ++ b) ++ "," ++ specCommaJoin (c :: l') =
      a ++ "," ++ (b ++ "," ++ specCommaJoin (c :: l'))
    simp [String.append_assoc]

/-- Helper: the fold of `_append_txn` comma-joins `txn_id`s, provided the
accumulator's id is non-empty. -/
theorem foldl_append_txn_txn_id (ts : List Events) :
    ∀ acc : Events, acc.txn_id ≠ "" →
      (ts.foldl _append_txn acc).txn_id =
        specCommaJoin (acc.txn_id :: ts.map (fun t => t.txn_id)) := by
  induction ts with
  | nil =>
    intro acc _
    rfl
  | cons t ts ih =>
    intro acc h
    have hstep : (_append_txn acc t).txn_id = acc.txn_id ++ "," ++ t.txn_id := by
      simp [_append_txn, h]
    have hne : (_append_txn acc t).txn_id ≠ "" := by
      rw [hstep]
      intro hc
      have hlen : (acc.txn_id ++ "," ++ t.txn_id).length = 0 := by
        rw [hc]
        rfl
      simp [String.length_append] at hlen
      obtain ⟨⟨-, h2⟩, -⟩ := hlen
      exact absurd h2 (by decide)
    rw [List.foldl_cons, ih (_append_txn acc t) hne, hstep, List.map_cons]
    exact specCommaJoin_glue _ _ _

/-- Helper: the fold of `_append_txn` makes the last envelope win on otk
key collisions. -/
theorem foldl_append_txn_otk (ts : List Events) :
    ∀ (acc : Events) (k : String),
      dlookup (ts.foldl _append_txn acc).otk_count k =
        (ts.reverse.findSome? (fun t => dlookup t.otk_count k)).or
          (dlookup acc.otk_count k) := by
  induction ts with
  | nil =>
    intro acc k
    simp
  | cons t ts ih =>
    intro acc k
    rw [List.foldl_cons, ih (_append_txn acc t) k, List.reverse_cons,
      List.findSome?_append]
    have hstep : dlookup (_append_txn acc t).otk_count k =
        (dlookup t.otk_count k).or (dlookup acc.otk_count k) := by
      simp only [_append_txn]
      exact dlookup_dictUnion _ _ _
    rw [hstep, ← Option.or_assoc]
    have hsingle : ([t].findSome? (fun t => dlookup t.otk_count k)) =
        dlookup t.otk_count k := by
      rw [List.findSome?_cons]
      cases dlookup t.otk_count k <;> rfl
    rw [hsingle]

/-- Helper: the fold of `_append_txn` unions the device-list sets
(membership-wise). -/
theorem foldl_append_txn_device_lists (ts : List Events) :
    ∀ (acc : Events) (x : String),
      (x ∈ (ts.foldl _append_txn acc).device_lists.changed ↔
        x ∈ acc.device_lists.changed ∨ ∃ t ∈ ts, x ∈ t.device_lists.changed) ∧
      (x ∈ (ts.foldl _append_txn acc).device_lists.left ↔
        x ∈ acc.device_lists.left ∨ ∃ t ∈ ts, x ∈ t.device_lists.left) := by
  induction ts with
  | nil =>
    intro acc x
    simp
  | cons t ts ih =>
    intro acc x
    obtain ⟨i1, i2⟩ := ih (_append_txn acc t) x
    rw [List.foldl_cons]
    constructor
    · rw [i1]
      simp only [_append_txn, _append_device_list, List.mem_dedup, List.mem_append,
        List.mem_cons]
      constructor
      · rintro ((h | h) | ⟨u, hu, hx⟩)
        · exact Or.inl h
        · exact Or.inr ⟨t, Or.inl rfl, h⟩
        · exact Or.inr ⟨u, Or.inr hu, hx⟩
      · rintro (h | ⟨u, (rfl | hu), hx⟩)
        · exact Or.inl (Or.inl h)
        · exact Or.inl (Or.inr hx)
        · exact Or.inr ⟨u, hu, hx⟩
    · rw [i2]
      simp only [_append_txn, _append_device_list, List.mem_dedup, List.mem_append,
        List.mem_cons]
      constructor
      · rintro ((h | h) | ⟨u, hu, hx⟩)
        · exact Or.inl h
        · exact Or.inr ⟨t, Or.inl rfl, h⟩
        · exact Or.inr ⟨u, Or.inr hu, hx⟩
      · rintro (h | ⟨u, (rfl | hu), hx⟩)
        · exact Or.inl (Or.inl h)
        · exact Or.inl (Or.inr hx)
        · exact Or.inr ⟨u, hu, hx⟩

/-- C9 counterexample: merging `[Events(""), Events("x")]` gives
`txn_id = "x"`, not the comma-join `",x"`: the fold only inserts a comma
when the accumulated id is non-empty, so a leading empty `txn_id` is
dropped rather than joined. -/
theorem combineAll_txn_id_counterexample :
    (combineAll [cexT1, cexT2]).txn_id = "x" ∧
    specCommaJoin ([cexT1, cexT2].map (fun t => t.txn_id)) = ",x" ∧
    (combineAll [cexT1, cexT2]).txn_id ≠
      specCommaJoin ([cexT1, cexT2].map (fun t => t.txn_id)) := by
  refine ⟨rfl, rfl, by decide⟩

/-- C9 (amended: the comma-join form of `txn_id` holds provided the first
envelope's `txn_id` is non-empty; all other clauses as claimed): the
merged envelope concatenates `pdu`, `edu` and `types` (so the lengths add
up), comma-joins the `txn_id`s, keys of `otk_count` are unioned with
later entries winning, and the `device_lists` sets are unioned. -/
theorem combineAll_merge (t0 : Events) (ts : List Events) (h0 : t0.txn_id ≠ "") :
    (combineAll (t0 :: ts)).pdu.length = ((t0 :: ts).map (fun t => t.pdu.length)).sum ∧
    (combineAll (t0 :: ts)).edu.length = ((t0 :: ts).map (fun t => t.edu.length)).sum ∧
    (combineAll (t0 :: ts)).types.length =
      ((t0 :: ts).map (fun t => t.types.length)).sum ∧
    (combineAll (t0 :: ts)).txn_id = specCommaJoin ((t0 :: ts).map (fun t => t.txn_id)) ∧
    (∀ k, dlookup (combineAll (t0 :: ts)).otk_count k =
      (t0 :: ts).reverse.findSome? (fun t => dlookup t.otk_count k)) ∧
    (∀ x, x ∈ (combineAll (t0 :: ts)).device_lists.changed ↔
      ∃ t ∈ t0 :: ts, x ∈ t.device_lists.changed) ∧
    (∀ x, x ∈ (combineAll (t0 :: ts)).device_lists.left ↔
      ∃ t ∈ t0 :: ts, x ∈ t.device_lists.left) := by
  obtain ⟨l1, l2, l3⟩ := foldl_append_txn_lengths (t0 :: ts) (emptyEvents "")
  refine ⟨by simpa [combineAll, emptyEvents] using l1, by simpa [combineAll, emptyEvents] using l2,
    by simpa [combineAll, emptyEvents] using l3, ?_, ?_, ?_, ?_⟩
  · have hid : (_append_txn (emptyEvents "") t0).txn_id = t0.txn_id := by
      simp [_append_txn, emptyEvents]
    rw [combineAll, List.foldl_cons,
      foldl_append_txn_txn_id ts _ (by rw [hid]; exact h0), hid, List.map_cons]
  · intro k
    rw [combineAll, foldl_append_txn_otk (t0 :: ts) (emptyEvents "") k]
    have hempty : dlookup (emptyEvents "").otk_count k = none := rfl
    rw [hempty, Option.or_none]
  · intro x
    rw [combineAll, (foldl_append_txn_device_lists (t0 :: ts) (emptyEvents "") x).1]
    simp [emptyEvents]
  · intro x
    rw [combineAll, (foldl_append_txn_device_lists (t0 :: ts) (emptyEvents "") x).2]
    simp [emptyEvents]

/-- C9 witness: the amended merge theorem at the two concrete envelopes
`wT` (non-empty `txn_id`) and `cT2`. -/
theorem combineAll_merge_witness :
    (combineAll [wT, cT2]).txn_id = specCommaJoin ([wT, cT2].map (fun t => t.txn_id)) :=
  (combineAll_merge wT [cT2] (by decide)).2.2.2.1

end Asmux
